import Mathlib

/-!
Verification development for the cth-agent customer-support chat agent.

The Python sources are shallowly embedded: pure functions become Lean
functions over `String`/`List`; the mutable `EnhancedMemory` and MCP
registry objects become explicit state records with pure update
functions; Python exceptions become `Except`/`Option` results; external
effects (network probes, wall-clock time) become explicit parameters.
-/

namespace CthAgent

/-! ## Generic string helpers (Python `in`, `lower`, slicing, `join`) -/

/-- `pat` occurs as a contiguous sublist of `l` (Python `pat in s` on strings). -/
def listInfixOf (pat l : List Char) : Bool :=
  match l with
  | [] => pat.isEmpty
  | _ :: tl => pat.isPrefixOf l || listInfixOf pat tl

/-- Python `pat in s` substring test. -/
def containsSubstr (s pat : String) : Bool :=
  listInfixOf pat.data s.data

/-- Python `str.lower()` (identity on the Chinese keywords used here). -/
def lowerStr (s : String) : String :=
  String.mk (s.data.map Char.toLower)

/-- Python `s[:n]` character slice. -/
def strSlice (s : String) (n : Nat) : String :=
  String.mk (s.data.take n)

/-- Python `sep.join(parts)`. -/
def joinWith (sep : String) : List String → String
  | [] => ""
  | [x] => x
  | x :: xs => x ++ sep ++ joinWith sep xs

/-- `any(keyword in text for keyword in kws)`. -/
def containsAnyKeyword (kws : List String) (text : String) : Bool :=
  kws.any (fun kw => containsSubstr text kw)

/-! ## Data model (`src/memory/enhanced_memory.py`)

`MessageType` is the source enum verbatim: its five members are
`USER_QUERY`, `PRODUCT_INQUIRY`, `ORDER_QUESTION`, `AFTER_SALES`,
`GENERAL_CHAT`.  Note the source defines no `LOGISTICS_QUERY` member. -/

inductive MessageType where
  | USER_QUERY
  | PRODUCT_INQUIRY
  | ORDER_QUESTION
  | AFTER_SALES
  | GENERAL_CHAT
deriving DecidableEq

/-- The `.value` string of each enum member, as in the source. -/
def MessageType.value : MessageType → String
  | .USER_QUERY => "user_query"
  | .PRODUCT_INQUIRY => "product_inquiry"
  | .ORDER_QUESTION => "order_question"
  | .AFTER_SALES => "after_sales"
  | .GENERAL_CHAT => "general_chat"

structure DialogTurn where
  user_input : String
  ai_response : String
  timestamp : String
  message_type : MessageType
  key_entities : List String
  intent : String
deriving DecidableEq

/-- A value stored in `EnhancedMemory.current_context`: either the
product-info dict `{"product_type": ..., "query": ...}` or the
order-info dict `{"order_id": ..., "query": ...}`. -/
inductive CtxVal where
  | product (product_type query : String)
  | order (order_id query : String)
deriving DecidableEq

/-- The `current_context` dict, as an insertion-ordered association list
(Python dicts preserve insertion order). -/
abbrev Context := List (String × CtxVal)

/-- Python dict assignment `ctx[k] = v`: overwrite in place if the key is
present, else append. -/
def setKey (ctx : Context) (k : String) (v : CtxVal) : Context :=
  if ctx.any (fun p => p.1 = k) then
    ctx.map (fun p => if p.1 = k then (k, v) else p)
  else
    ctx ++ [(k, v)]

structure EnhancedMemory where
  max_history : Nat
  summary_threshold : Nat
  dialog_history : List DialogTurn
  conversation_summary : String
  current_context : Context
deriving DecidableEq

/-- `EnhancedMemory.__init__`. -/
def initMemory (max_history summary_threshold : Nat) : EnhancedMemory :=
  { max_history := max_history
    summary_threshold := summary_threshold
    dialog_history := []
    conversation_summary := ""
    current_context := [] }

/-! ## Keyword tables -/

/-- `self.ecommerce_keywords["product_related"]`. -/
def kwProductRelated : List String :=
  ["商品", "产品", "衣服", "鞋子", "电子产品", "价格", "规格", "尺码"]

/-- `self.ecommerce_keywords["order_related"]`. -/
def kwOrderRelated : List String :=
  ["订单", "购买", "下单", "付款", "支付", "账单"]

/-- `self.ecommerce_keywords["logistics_related"]`. -/
def kwLogisticsRelated : List String :=
  ["发货", "快递", "物流", "配送", "运输", "到货"]

/-- `self.ecommerce_keywords["after_sales"]`. -/
def kwAfterSales : List String :=
  ["退货", "换货", "退款", "售后", "保修", "质量问题"]

/-- `product_keywords` in `QwenEcommerceAgent._classify_message_type`. -/
def classifyProductKeywords : List String :=
  ["商品", "产品", "衣服", "鞋子", "价格", "多少钱", "规格", "型号"]

/-- `order_keywords` in `_classify_message_type`. -/
def classifyOrderKeywords : List String :=
  ["订单", "下单", "购买", "付款", "支付", "账单"]

/-- `after_sales_keywords` in `_classify_message_type`. -/
def classifyAfterSalesKeywords : List String :=
  ["退货", "换货", "退款", "售后", "保修", "质量问题"]

/-- `logistics_keywords` in `_classify_message_type`. -/
def classifyLogisticsKeywords : List String :=
  ["发货", "快递", "物流", "配送", "运输", "到货", "什么时候到"]

/-! ## Message classification (`src/agents/qwen_agent.py`)

`_classify_message_type` returns `MessageType.LOGISTICS_QUERY` in its
logistics branch, but the `MessageType` enum defines no such member, so
Python raises `AttributeError` there.  The embedding returns
`Except.error` for that branch and `Except.ok` elsewhere. -/

def classifyMessageType (user_input : String) : Except String MessageType :=
  let text_lower := lowerStr user_input
  if containsAnyKeyword classifyProductKeywords text_lower then
    .ok .PRODUCT_INQUIRY
  else if containsAnyKeyword classifyOrderKeywords text_lower then
    .ok .ORDER_QUESTION
  else if containsAnyKeyword classifyAfterSalesKeywords text_lower then
    .ok .AFTER_SALES
  else if containsAnyKeyword classifyLogisticsKeywords text_lower then
    .error "AttributeError: type object MessageType has no attribute LOGISTICS_QUERY"
  else
    .ok .GENERAL_CHAT

/-- `EnhancedMemory._analyze_intent` (note its priority order differs from
`_classify_message_type`: logistics is checked before after-sales). -/
def analyzeIntent (user_input : String) : String :=
  let user_input_lower := lowerStr user_input
  if containsAnyKeyword kwProductRelated user_input_lower then "product_inquiry"
  else if containsAnyKeyword kwOrderRelated user_input_lower then "order_question"
  else if containsAnyKeyword kwLogisticsRelated user_input_lower then "logistics_query"
  else if containsAnyKeyword kwAfterSales user_input_lower then "after_sales"
  else "general_inquiry"

/-! ## Context extraction (`_extract_product_info`, `_extract_order_info`) -/

/-- `product_keywords` in `EnhancedMemory._extract_product_info`. -/
def productVocab : List String :=
  ["衣服", "鞋子", "手机", "电脑", "化妆品"]

/-- Python `for keyword in product_keywords: if keyword in text` — the
first listed keyword occurring in `text`, if any. -/
def firstProductKeyword (text : String) : Option String :=
  productVocab.find? (fun kw => containsSubstr text kw)

/-- `_extract_product_info`: a product-info dict when a vocabulary keyword
occurs, else `None`. -/
def extractProductInfo (text : String) : Option CtxVal :=
  (firstProductKeyword text).map (fun kw => .product kw text)

/-- A character matched by the regex class `[A-Z0-9]`. -/
def isOrderChar (c : Char) : Bool :=
  (('A' ≤ c && c ≤ 'Z') || ('0' ≤ c && c ≤ '9'))

/-- `re.search(r'[A-Z0-9]\x7b10,\x7d', text)`: scan start positions left to
right; at the first position whose maximal `[A-Z0-9]` run has length ≥ 10,
return that (greedy) run. -/
def findOrderRun : List Char → Option (List Char)
  | [] => none
  | c :: cs =>
    let run := (c :: cs).takeWhile isOrderChar
    if 10 ≤ run.length then some run else findOrderRun cs

/-- `_extract_order_info`: an order-info dict when the order-number regex
matches, else `None`. -/
def extractOrderInfo (text : String) : Option CtxVal :=
  (findOrderRun text.data).map (fun run => .order (String.mk run) text)

/-- `EnhancedMemory._update_context`. -/
def updateContext (ctx : Context) (turn : DialogTurn) : Context :=
  match turn.message_type with
  | .PRODUCT_INQUIRY =>
    match extractProductInfo turn.user_input with
    | some p => setKey ctx "current_product" p
    | none => ctx
  | .ORDER_QUESTION =>
    match extractOrderInfo turn.user_input with
    | some o => setKey ctx "current_order" o
    | none => ctx
  | _ => ctx

/-! ## Summary generation (`_extract_key_topics`, `_generate_summary`) -/

/-- Python `s.replace("_", " ")` for the single-character pattern `"_"`:
every underscore becomes a space. -/
def replaceUnderscore (s : String) : String :=
  String.mk (s.data.map (fun ch => if ch = '_' then ' ' else ch))

/-- First-occurrence deduplication.  Models Python's `list(set(...))` built
by in-order insertion; the source's set-iteration order is a hash artifact,
fixed here deterministically as insertion order. -/
def dedupKeepFirst (l : List String) : List String :=
  l.foldl (fun acc x => if x ∈ acc then acc else acc ++ [x]) []

/-- `EnhancedMemory._extract_key_topics`: distinct `message_type.value`
strings (with `_` replaced by a space) of all non-general-chat turns of the
entire stored history. -/
def extractKeyTopics (hist : List DialogTurn) : List String :=
  dedupKeepFirst
    ((hist.filter (fun t => t.message_type ≠ .GENERAL_CHAT)).map
      (fun t => replaceUnderscore t.message_type.value))

/-- Python `history[-n:]`. -/
def lastN (n : Nat) (l : List DialogTurn) : List DialogTurn :=
  l.drop (l.length - n)

/-- The enumerated lines `f"\x7bi\x7d. 用户询问\x7bturn.intent\x7d相关问题"`,
numbering from `i`. -/
def recentLines (i : Nat) : List DialogTurn → List String
  | [] => []
  | t :: ts => (toString i ++ ". 用户询问" ++ t.intent ++ "相关问题") :: recentLines (i + 1) ts

/-- `EnhancedMemory._generate_summary`: returns the new
`conversation_summary`; if fewer than 2 turns are stored, the old summary
is kept unchanged (early return). -/
def generateSummary (hist : List DialogTurn) (old : String) : String :=
  if hist.length < 2 then old
  else
    let recent_turns := lastN 3 hist
    let key_topics := extractKeyTopics hist
    let parts :=
      ["对话摘要："]
      ++ (if key_topics.isEmpty then [] else ["主要话题：" ++ joinWith ", " key_topics])
      ++ ["近期讨论："]
      ++ recentLines 1 recent_turns
    joinWith "\n" parts

/-! ## Memory operations -/

/-- `EnhancedMemory.add_dialog_turn`: build the turn (intent re-derived
from the user input), append, update context, evict the oldest turn when
over `max_history`, then regenerate the summary when the threshold is
reached. -/
def addDialogTurn (m : EnhancedMemory) (user_input ai_response timestamp : String)
    (message_type : MessageType) (key_entities : List String) : EnhancedMemory :=
  let turn : DialogTurn :=
    { user_input := user_input
      ai_response := ai_response
      timestamp := timestamp
      message_type := message_type
      key_entities := key_entities
      intent := analyzeIntent user_input }
  let hist1 := m.dialog_history ++ [turn]
  let ctx1 := updateContext m.current_context turn
  let hist2 := if m.max_history < hist1.length then hist1.tail else hist1
  let summ :=
    if m.summary_threshold ≤ hist2.length then generateSummary hist2 m.conversation_summary
    else m.conversation_summary
  { m with dialog_history := hist2, conversation_summary := summ, current_context := ctx1 }

/-- Python repr of a stored context dict (as interpolated by the f-string
in `get_context_for_prompt`). -/
def ctxValRepr : CtxVal → String
  | .product pt q => "\x7b'product_type': '" ++ pt ++ "', 'query': '" ++ q ++ "'\x7d"
  | .order oid q => "\x7b'order_id': '" ++ oid ++ "', 'query': '" ++ q ++ "'\x7d"

/-- The `当前上下文信息` block of `get_context_for_prompt` (empty when the
context dict is empty). -/
def contextLines (ctx : Context) : List String :=
  if ctx.isEmpty then []
  else "当前上下文信息：" :: ctx.map (fun kv => "- " ++ kv.1 ++ ": " ++ ctxValRepr kv.2)

/-- The raw `最近对话` block: the last two turns verbatim. -/
def recentTurnLines (hist : List DialogTurn) : List String :=
  "最近对话：" ::
    (lastN 2 hist).flatMap (fun t => ["用户: " ++ t.user_input, "客服: " ++ t.ai_response])

/-- `EnhancedMemory.get_context_for_prompt`. -/
def getContextForPrompt (m : EnhancedMemory) : String :=
  let parts :=
    (if m.conversation_summary = "" then [] else [m.conversation_summary])
    ++ contextLines m.current_context
    ++ (if m.conversation_summary = "" ∧ ¬ m.dialog_history.isEmpty then
          recentTurnLines m.dialog_history
        else [])
  if parts.isEmpty then "无历史对话记录" else joinWith "\n" parts

/-- The record returned by `EnhancedMemory.get_memory_stats`. -/
structure MemoryStats where
  total_turns : Nat
  current_summary : String
  context_keys : List String
  message_types : List String
deriving DecidableEq

/-- `EnhancedMemory.get_memory_stats`.  Note the Python conditional
expression parses as `(summary[:100] + "...") if summary else "无"`: the
ellipsis is appended whenever the summary is non-empty. -/
def getMemoryStats (m : EnhancedMemory) : MemoryStats :=
  { total_turns := m.dialog_history.length
    current_summary :=
      if m.conversation_summary = "" then "无"
      else strSlice m.conversation_summary 100 ++ "..."
    context_keys := m.current_context.map (fun kv => kv.1)
    message_types := (m.dialog_history.drop (m.dialog_history.length - 5)).map
      (fun t => t.message_type.value) }

/-- `EnhancedMemory.clear_memory`. -/
def clearMemory (m : EnhancedMemory) : EnhancedMemory :=
  { m with dialog_history := [], conversation_summary := "", current_context := [] }

/-! ## Call sequences -/

/-- The arguments of one `add_dialog_turn` call. -/
structure AddCall where
  user_input : String
  ai_response : String
  timestamp : String
  message_type : MessageType
  key_entities : List String
deriving DecidableEq

def applyAdd (m : EnhancedMemory) (c : AddCall) : EnhancedMemory :=
  addDialogTurn m c.user_input c.ai_response c.timestamp c.message_type c.key_entities

/-- A sequence of `add_dialog_turn` calls. -/
def runAdds (m : EnhancedMemory) : List AddCall → EnhancedMemory
  | [] => m
  | c :: cs => runAdds (applyAdd m c) cs

/-- A public mutating operation on the memory. -/
inductive MemOp where
  | add (c : AddCall)
  | clear
deriving DecidableEq

def applyOp (m : EnhancedMemory) : MemOp → EnhancedMemory
  | .add c => applyAdd m c
  | .clear => clearMemory m

/-- A sequence of public mutating operations (the reachable states). -/
def runOps (m : EnhancedMemory) : List MemOp → EnhancedMemory
  | [] => m
  | o :: os => runOps (applyOp m o) os

/-! ## Export (`export_memory`) and structural re-parse

`export_memory` serializes via `json.dumps`; the embedding works at the
level of the JSON value produced (the structural content of the emitted
text). -/

inductive Json where
  | str (s : String)
  | arr (elems : List Json)
  | obj (fields : List (String × Json))

/-- The JSON object built for one turn in `export_memory`. -/
def turnToJson (t : DialogTurn) : Json :=
  .obj
    [("user_input", .str t.user_input),
     ("ai_response", .str t.ai_response),
     ("timestamp", .str t.timestamp),
     ("message_type", .str t.message_type.value),
     ("key_entities", .arr (t.key_entities.map .str)),
     ("intent", .str t.intent)]

def ctxValToJson : CtxVal → Json
  | .product pt q => .obj [("product_type", .str pt), ("query", .str q)]
  | .order oid q => .obj [("order_id", .str oid), ("query", .str q)]

/-- `EnhancedMemory.export_memory`: the serialized `memory_data` value. -/
def exportMemory (m : EnhancedMemory) : Json :=
  .obj
    [("dialog_history", .arr (m.dialog_history.map turnToJson)),
     ("conversation_summary", .str m.conversation_summary),
     ("current_context", .obj (m.current_context.map (fun kv => (kv.1, ctxValToJson kv.2))))]

/-- Field lookup in a parsed JSON object. -/
def jGet (fields : List (String × Json)) (k : String) : Option Json :=
  (fields.find? (fun p => p.1 = k)).map (fun p => p.2)

/-- Inverse of `MessageType.value`. -/
def valueToMessageType (s : String) : Option MessageType :=
  if s = "user_query" then some .USER_QUERY
  else if s = "product_inquiry" then some .PRODUCT_INQUIRY
  else if s = "order_question" then some .ORDER_QUESTION
  else if s = "after_sales" then some .AFTER_SALES
  else if s = "general_chat" then some .GENERAL_CHAT
  else none

def parseStrList : List Json → Option (List String)
  | [] => some []
  | .str s :: rest => (parseStrList rest).map (fun l => s :: l)
  | _ => none

/-- Structural re-parse of one exported turn. -/
def parseTurn : Json → Option DialogTurn
  | .obj f =>
    match jGet f "user_input", jGet f "ai_response", jGet f "timestamp",
          jGet f "message_type", jGet f "key_entities", jGet f "intent" with
    | some (.str ui), some (.str ar), some (.str ts),
      some (.str mts), some (.arr kej), some (.str it) =>
      match valueToMessageType mts, parseStrList kej with
      | some mt, some ke => some ⟨ui, ar, ts, mt, ke, it⟩
      | _, _ => none
    | _, _, _, _, _, _ => none
  | _ => none

def parseCtxVal : Json → Option CtxVal
  | .obj [("product_type", .str pt), ("query", .str q)] => some (.product pt q)
  | .obj [("order_id", .str oid), ("query", .str q)] => some (.order oid q)
  | _ => none

def parseTurnList : List Json → Option (List DialogTurn)
  | [] => some []
  | j :: rest =>
    match parseTurn j, parseTurnList rest with
    | some t, some ts => some (t :: ts)
    | _, _ => none

def parseContext : List (String × Json) → Option Context
  | [] => some []
  | (k, j) :: rest =>
    match parseCtxVal j, parseContext rest with
    | some v, some ctx => some ((k, v) :: ctx)
    | _, _ => none

/-- The recoverable content of a memory state: every turn with all six
fields, the summary, and the context map. -/
structure MemoryData where
  dialog_history : List DialogTurn
  conversation_summary : String
  current_context : Context
deriving DecidableEq

/-- Structural re-parse of the exported memory value. -/
def parseMemoryData : Json → Option MemoryData
  | .obj f =>
    match jGet f "dialog_history", jGet f "conversation_summary", jGet f "current_context" with
    | some (.arr hj), some (.str s), some (.obj cj) =>
      match parseTurnList hj, parseContext cj with
      | some hist, some ctx => some ⟨hist, s, ctx⟩
      | _, _ => none
    | _, _, _ => none
  | _ => none

/-! ## MCP tool registry (`src/tools/mcp_base.py` and the two tools)

Environment variables are explicit (`Env`); the OCR tool's network probe
outcome and its `execute` behavior are external effects, passed as
parameters. -/

/-- The set environment variables, name/value pairs (`os.getenv`). -/
abbrev Env := List (String × String)

def getenv (env : Env) (v : String) : Option String :=
  (env.find? (fun p => p.1 = v)).map (fun p => p.2)

/-- `MCPTool.check_permissions`: every required variable is set and
non-empty (Python `if not os.getenv(var)` treats `""` as missing). -/
def checkPermissions (env : Env) (required : List String) : Bool :=
  (required.filter (fun v => (getenv env v).getD "" = "")).isEmpty

/-- The concrete tool implementations registered in the sources. -/
inductive ToolImpl where
  | logistics
  | ocr
deriving DecidableEq

structure MCPToolState where
  name : String
  description : String
  is_enabled : Bool
  required_env_vars : List String
  impl : ToolImpl
deriving DecidableEq

/-- `LogisticsMCPTool` as constructed. -/
def logisticsTool : MCPToolState :=
  { name := "logistics_tracker"
    description := "物流信息查询工具"
    is_enabled := false
    required_env_vars := ["LOGISTICS_APP_CODE"]
    impl := .logistics }

/-- `AliyunOCRMCPTool` as constructed. -/
def ocrTool : MCPToolState :=
  { name := "aliyun_ocr"
    description := "阿里云高级OCR文字识别服务"
    is_enabled := false
    required_env_vars := ["ALIYUN_IMAGE_APP_CODE"]
    impl := .ocr }

/-- Each tool's `initialize` probe.  `LogisticsMCPTool.initialize` runs
`check_permissions` but only prints a warning on failure and returns
`True` regardless (sample-data fallback).  `AliyunOCRMCPTool.initialize`
returns `False` when `check_permissions` fails, else the outcome of its
network connectivity test, which is external (`ocrProbe`). -/
def initProbe (impl : ToolImpl) (env : Env) (required : List String) (ocrProbe : Bool) : Bool :=
  match impl with
  | .logistics => true
  | .ocr => if checkPermissions env required then ocrProbe else false

structure MCPManager where
  tools : List (String × MCPToolState)
  enabled_tools : List String
deriving DecidableEq

/-- `MCPManager.register_tool` (dict assignment, overwrite by name). -/
def registerTool (mgr : MCPManager) (t : MCPToolState) : MCPManager :=
  { mgr with
    tools :=
      if mgr.tools.any (fun p => p.1 = t.name) then
        mgr.tools.map (fun p => if p.1 = t.name then (t.name, t) else p)
      else mgr.tools ++ [(t.name, t)] }

def lookupTool (mgr : MCPManager) (name : String) : Option MCPToolState :=
  (mgr.tools.find? (fun p => p.1 = name)).map (fun p => p.2)

/-- `MCPManager.enable_tool` (which calls `MCPTool.enable`): unknown name →
`False`, state unchanged; probe failure → `False`, state unchanged (the
flag is only set on success); probe success → flag set and name appended
to `enabled_tools`. -/
def enableTool (mgr : MCPManager) (name : String) (env : Env) (ocrProbe : Bool) :
    Bool × MCPManager :=
  match lookupTool mgr name with
  | none => (false, mgr)
  | some t =>
    if initProbe t.impl env t.required_env_vars ocrProbe then
      (true,
       { tools := mgr.tools.map (fun p =>
           if p.1 = name then (p.1, { t with is_enabled := true }) else p)
         enabled_tools := mgr.enabled_tools ++ [name] })
    else (false, mgr)

/-- A value in a tool-execution result dict. -/
inductive RVal where
  | s (v : String)
  | b (v : Bool)
deriving DecidableEq

abbrev ExecResult := List (String × RVal)

/-- `LogisticsMCPTool.execute(tracking_number)`: keyword-argument binding
(a `TypeError` on missing or unexpected kwargs becomes `.error`), then the
sample-data lookup; `now` stands for `time.strftime(...)`. -/
def logisticsExecute (params : List (String × String)) (now : String) :
    Except String ExecResult :=
  match params with
  | [(k, tn)] =>
    if k = "tracking_number" then
      if tn = "SF123456789CN" then
        .ok [("success", .b true), ("tracking_number", .s tn),
             ("status", .s "运输中"), ("current_location", .s "上海市转运中心"),
             ("update_time", .s "2024-01-15 14:30:00"),
             ("latest_progress", .s "已到达上海转运中心，准备发往下一站"),
             ("is_sample_data", .b true)]
      else if tn = "YT987654321CN" then
        .ok [("success", .b true), ("tracking_number", .s tn),
             ("status", .s "已签收"), ("current_location", .s "北京市朝阳区"),
             ("update_time", .s "2024-01-14 16:45:00"),
             ("latest_progress", .s "快件已被本人签收"),
             ("is_sample_data", .b true)]
      else
        .ok [("success", .b true), ("tracking_number", .s tn),
             ("status", .s "查询中"), ("current_location", .s "数据处理中"),
             ("update_time", .s now),
             ("latest_progress", .s "正在查询物流信息..."),
             ("is_sample_data", .b true),
             ("note", .s "此为示例数据，实际使用需要配置真实物流API")]
    else .error ("execute() got an unexpected keyword argument '" ++ k ++ "'")
  | [] => .error "execute() missing 1 required positional argument: 'tracking_number'"
  | _ => .error "execute() got unexpected keyword arguments"

/-- Dispatch of `tool.execute(**kwargs)`; the OCR tool's behavior depends
on the filesystem and network, supplied as the oracle `ocrExec`. -/
def toolExecute (impl : ToolImpl) (params : List (String × String)) (now : String)
    (ocrExec : List (String × String) → Except String ExecResult) :
    Except String ExecResult :=
  match impl with
  | .logistics => logisticsExecute params now
  | .ocr => ocrExec params

/-- `MCPManager.execute_tool`: unknown name → `None`; tool not enabled →
`None`; otherwise run the capability, converting a raised exception into
the dict `\x7b"error": str(e)\x7d`. -/
def executeTool (mgr : MCPManager) (name : String) (params : List (String × String))
    (now : String) (ocrExec : List (String × String) → Except String ExecResult) :
    Option ExecResult :=
  match lookupTool mgr name with
  | none => none
  | some t =>
    if ¬ t.is_enabled then none
    else
      match toolExecute t.impl params now ocrExec with
      | .ok r => some r
      | .error e => some [("error", .s e)]

/-- The module-level registry after both tool modules have registered
their instances. -/
def mcpManager0 : MCPManager :=
  registerTool (registerTool ⟨[], []⟩ logisticsTool) ocrTool

/-! ## Spec-side definitions (for refinement-style claims) -/

/-- The summary template as the spec describes it: a header, a main-topics
line built from the distinct non-general-chat categories of the entire
stored history (when any), a recent-discussion header, and one enumerated
line per turn among the last `min 3 len` turns stating the user asked
about that turn's intent. -/
def specSummaryTemplate (hist : List DialogTurn) : String :=
  let topics := dedupKeepFirst
    (hist.filterMap (fun t =>
      if t.message_type = .GENERAL_CHAT then none
      else some (replaceUnderscore t.message_type.value)))
  let recent := hist.drop (hist.length - min 3 hist.length)
  joinWith "\n"
    (["对话摘要："]
     ++ (if topics = [] then [] else ["主要话题：" ++ joinWith ", " topics])
     ++ ["近期讨论："]
     ++ recentLines 1 recent)

/-! ## Helper lemmas -/

theorem isPrefixOf_map (f : Char → Char) :
    ∀ (pat l : List Char), pat.isPrefixOf l = true → (pat.map f).isPrefixOf (l.map f) = true := by
  intro pat
  induction pat with
  | nil => intro l _; simp [List.isPrefixOf]
  | cons a as ih =>
    intro l h
    cases l with
    | nil => simp [List.isPrefixOf] at h
    | cons b bs =>
      simp only [List.isPrefixOf, Bool.and_eq_true, beq_iff_eq] at h
      simp only [List.map, List.isPrefixOf, Bool.and_eq_true, beq_iff_eq]
      exact ⟨by rw [h.1], ih bs h.2⟩

theorem listInfixOf_map (f : Char → Char) :
    ∀ (pat l : List Char), listInfixOf pat l = true → listInfixOf (pat.map f) (l.map f) = true := by
  intro pat l
  induction l with
  | nil =>
    intro h
    simp [listInfixOf] at h ⊢
    simp [h]
  | cons b bs ih =>
    intro h
    simp only [listInfixOf, Bool.or_eq_true] at h
    rcases h with h | h
    · simp only [List.map, listInfixOf, Bool.or_eq_true]
      exact Or.inl (isPrefixOf_map f pat (b :: bs) h)
    · simp only [List.map, listInfixOf, Bool.or_eq_true]
      exact Or.inr (ih h)

/-- A keyword that the `lower` transformation leaves unchanged occurs in
the lowered text whenever it occurs in the raw text. -/
theorem containsSubstr_lowerStr (s kw : String) (hk : lowerStr kw = kw)
    (h : containsSubstr s kw = true) : containsSubstr (lowerStr s) kw = true := by
  have hmap := listInfixOf_map Char.toLower kw.data s.data h
  have hdata : kw.data.map Char.toLower = kw.data := congrArg String.data hk
  simpa [containsSubstr, lowerStr, hdata] using hmap

theorem containsAnyKeyword_lowerStr (kws : List String) (s : String)
    (hfix : ∀ kw ∈ kws, lowerStr kw = kw)
    (h : containsAnyKeyword kws s = true) :
    containsAnyKeyword kws (lowerStr s) = true := by
  simp only [containsAnyKeyword, List.any_eq_true] at h ⊢
  obtain ⟨kw, hmem, hsub⟩ := h
  exact ⟨kw, hmem, containsSubstr_lowerStr s kw (hfix kw hmem) hsub⟩

theorem classifyProductKeywords_lower_fixed :
    ∀ kw ∈ classifyProductKeywords, lowerStr kw = kw := by decide

/-! ## Claims C1 and C6: the message classifier -/

/-- C1: the claim states the classifier is total and returns the
logistics-query category for logistics-only inputs.  The source instead
crashes there: `_classify_message_type` returns
`MessageType.LOGISTICS_QUERY`, but the `MessageType` enum defines no such
member (it has `USER_QUERY` instead), so the input "快递" — which contains
the logistics keyword "快递" and no product, order, or after-sales
keyword — raises `AttributeError`.  The embedding records that branch as
an error result, evaluated here at the failing input. -/
theorem C1_classifier_crashes_on_logistics_input :
    classifyMessageType "快递" =
      Except.error "AttributeError: type object MessageType has no attribute LOGISTICS_QUERY" := by
  rfl

/-- C6: any input containing a product keyword is classified as product
inquiry, regardless of which later-priority keywords also occur, because
the product keyword set is checked first. -/
theorem C6_product_priority (s : String)
    (h : containsAnyKeyword classifyProductKeywords s = true) :
    classifyMessageType s = Except.ok MessageType.PRODUCT_INQUIRY := by
  have hl : containsAnyKeyword classifyProductKeywords (lowerStr s) = true :=
    containsAnyKeyword_lowerStr _ _ classifyProductKeywords_lower_fixed h
  simp [classifyMessageType, hl]

/-- Witness for C6 at the input "商品快递", which contains both the
product keyword "商品" and the logistics keyword "快递". -/
theorem C6_product_priority_witness :
    containsAnyKeyword classifyProductKeywords "商品快递" = true
    ∧ classifyMessageType "商品快递" = Except.ok MessageType.PRODUCT_INQUIRY :=
  ⟨by decide, C6_product_priority "商品快递" (by decide)⟩

/-! ## Claim C2: bounded history with FIFO eviction -/

theorem applyAdd_max_history (m : EnhancedMemory) (c : AddCall) :
    (applyAdd m c).max_history = m.max_history := by
  simp [applyAdd, addDialogTurn]

theorem applyAdd_summary_threshold (m : EnhancedMemory) (c : AddCall) :
    (applyAdd m c).summary_threshold = m.summary_threshold := by
  simp [applyAdd, addDialogTurn]

theorem applyAdd_length_le (m : EnhancedMemory) (c : AddCall)
    (h : m.dialog_history.length ≤ m.max_history) :
    (applyAdd m c).dialog_history.length ≤ m.max_history := by
  simp only [applyAdd, addDialogTurn]
  split
  · next hover =>
    simp only [List.length_tail, List.length_append, List.length_cons, List.length_nil]
    omega
  · next hok =>
    simp only [List.length_append, List.length_cons, List.length_nil] at hok ⊢
    omega

/-- The `DialogTurn` constructed by `add_dialog_turn` for one call. -/
def mkTurn (c : AddCall) : DialogTurn :=
  { user_input := c.user_input, ai_response := c.ai_response,
    timestamp := c.timestamp, message_type := c.message_type,
    key_entities := c.key_entities, intent := analyzeIntent c.user_input }

theorem runAdds_length_le (mh : Nat) :
    ∀ (cs : List AddCall) (m : EnhancedMemory),
      m.max_history = mh → m.dialog_history.length ≤ mh →
      (runAdds m cs).max_history = mh ∧ (runAdds m cs).dialog_history.length ≤ mh := by
  intro cs
  induction cs with
  | nil => intro m h1 h2; exact ⟨h1, h2⟩
  | cons c cs ih =>
    intro m h1 h2
    have hstep : (applyAdd m c).dialog_history.length ≤ mh := by
      have h := applyAdd_length_le m c (by omega)
      omega
    exact ih (applyAdd m c) (by rw [applyAdd_max_history, h1]) hstep

/-- When the buffer is exactly full, one more `add_dialog_turn` evicts the
head (the earliest appended turn) and appends the new turn at the end. -/
theorem applyAdd_fifo (m : EnhancedMemory) (c : AddCall)
    (hfull : m.dialog_history.length = m.max_history)
    (hm : 1 ≤ m.max_history) :
    (applyAdd m c).dialog_history = m.dialog_history.tail ++ [mkTurn c] := by
  simp only [applyAdd, addDialogTurn]
  have hover : m.max_history < (m.dialog_history ++ [mkTurn c]).length := by
    simp [List.length_append, hfull]
  simp only [mkTurn] at hover
  rw [if_pos hover]
  cases hd : m.dialog_history with
  | nil =>
    rw [hd] at hfull
    simp at hfull
    omega
  | cons t ts => simp [hd, mkTurn]

/-- C2: starting from a fresh memory with `max_history ≥ 1`, every
sequence of `add_dialog_turn` calls keeps `len(history) ≤ max_history`,
and a call arriving with the buffer full evicts exactly the oldest
(head) turn, appending the new turn at the tail (FIFO). -/
theorem C2_history_bounded_fifo (mh st : Nat) (hmh : 1 ≤ mh) :
    (∀ cs : List AddCall,
      (runAdds (initMemory mh st) cs).dialog_history.length ≤ mh)
    ∧ (∀ (cs : List AddCall) (c : AddCall),
        (runAdds (initMemory mh st) cs).dialog_history.length = mh →
        (applyAdd (runAdds (initMemory mh st) cs) c).dialog_history =
          (runAdds (initMemory mh st) cs).dialog_history.tail ++ [mkTurn c]) := by
  constructor
  · intro cs
    exact (runAdds_length_le mh cs (initMemory mh st) rfl (by simp [initMemory])).2
  · intro cs c hfull
    have hmax : (runAdds (initMemory mh st) cs).max_history = mh :=
      (runAdds_length_le mh cs (initMemory mh st) rfl (by simp [initMemory])).1
    exact applyAdd_fifo _ c (by rw [hmax, hfull]) (by rw [hmax]; exact hmh)

/-- Witness for C2: a fresh memory with `max_history = 1`, two calls; the
bound holds and the second call evicts the first turn. -/
theorem C2_history_bounded_fifo_witness :
    (1 : Nat) ≤ 1
    ∧ (runAdds (initMemory 1 9)
        [⟨"a", "b", "t1", .GENERAL_CHAT, []⟩,
         ⟨"c", "d", "t2", .GENERAL_CHAT, []⟩]).dialog_history.length ≤ 1 :=
  ⟨by decide,
   (C2_history_bounded_fifo 1 9 (by decide)).1
     [⟨"a", "b", "t1", .GENERAL_CHAT, []⟩, ⟨"c", "d", "t2", .GENERAL_CHAT, []⟩]⟩

/-! ## Claim C3: summary regeneration -/

theorem string_append_data (a b : String) : (a ++ b).data = a.data ++ b.data := rfl

theorem joinWith_ne_empty (sep x : String) (xs : List String) (hx : x ≠ "") :
    joinWith sep (x :: xs) ≠ "" := by
  cases xs with
  | nil => simpa [joinWith] using hx
  | cons y zs =>
    simp only [joinWith]
    intro h
    apply hx
    have hdata := congrArg String.data h
    rw [string_append_data, string_append_data] at hdata
    simp only [List.append_assoc, List.append_eq_nil] at hdata
    exact congrArg String.mk hdata.1

theorem filter_map_eq_filterMap (l : List DialogTurn) :
    ((l.filter (fun t => t.message_type ≠ .GENERAL_CHAT)).map
      (fun t => replaceUnderscore t.message_type.value)) =
    (l.filterMap (fun t =>
      if t.message_type = .GENERAL_CHAT then none
      else some (replaceUnderscore t.message_type.value))) := by
  induction l with
  | nil => rfl
  | cons t ts ih =>
    simp only [decide_not] at ih
    simp only [List.filter_cons, List.filterMap_cons, decide_not]
    by_cases h : t.message_type = .GENERAL_CHAT
    · simp [h, ih]
    · simp [h, ih]

theorem generateSummary_eq_spec (hist : List DialogTurn) (old : String)
    (h2 : 2 ≤ hist.length) :
    generateSummary hist old = specSummaryTemplate hist := by
  have hlt : ¬ hist.length < 2 := by omega
  have hdrop : hist.length - min 3 hist.length = hist.length - 3 := by omega
  simp only [generateSummary, specSummaryTemplate, lastN, extractKeyTopics,
    filter_map_eq_filterMap, hdrop, if_neg hlt, List.isEmpty_iff]

theorem specSummaryTemplate_ne_empty (hist : List DialogTurn) :
    specSummaryTemplate hist ≠ "" := by
  simp only [specSummaryTemplate]
  exact joinWith_ne_empty _ _ _ (by decide)

theorem applyAdd_length_ge (m : EnhancedMemory) (c : AddCall) :
    m.dialog_history.length ≤ (applyAdd m c).dialog_history.length := by
  simp only [applyAdd, addDialogTurn]
  split
  · simp only [List.length_tail, List.length_append, List.length_cons, List.length_nil]
    omega
  · simp only [List.length_append, List.length_cons, List.length_nil]
    omega

theorem applyAdd_summary_of_threshold (m : EnhancedMemory) (c : AddCall)
    (hthr : m.summary_threshold ≤ (applyAdd m c).dialog_history.length) :
    (applyAdd m c).conversation_summary =
      generateSummary (applyAdd m c).dialog_history m.conversation_summary := by
  simp only [applyAdd, addDialogTurn] at hthr ⊢
  rw [if_pos hthr]

/-- C3 (amended): whenever `len(history) ≥ summary_threshold` holds before
an `add_dialog_turn` call and the history after the call has at least 2
turns, the call wholesale-replaces the summary with the fixed template:
the distinct non-general-chat categories of the entire stored history as
main topics, plus one enumerated intent line per turn among the last
`min(3, len(history))` turns; the result is non-empty.  (The source keeps
the old summary unchanged when fewer than 2 turns are stored, which is
what the 2-turn side condition excludes.) -/
theorem C3_summary_regenerated (m : EnhancedMemory) (c : AddCall)
    (hpre : m.summary_threshold ≤ m.dialog_history.length)
    (h2 : 2 ≤ (applyAdd m c).dialog_history.length) :
    (applyAdd m c).conversation_summary =
      specSummaryTemplate (applyAdd m c).dialog_history
    ∧ (applyAdd m c).conversation_summary ≠ "" := by
  have hthr : m.summary_threshold ≤ (applyAdd m c).dialog_history.length :=
    le_trans hpre (applyAdd_length_ge m c)
  have heq : (applyAdd m c).conversation_summary =
      specSummaryTemplate (applyAdd m c).dialog_history := by
    rw [applyAdd_summary_of_threshold m c hthr]
    exact generateSummary_eq_spec _ _ h2
  exact ⟨heq, heq ▸ specSummaryTemplate_ne_empty _⟩

/-- Witness for C3 (amended): fresh memory with `max_history = 10`,
`summary_threshold = 0`; after one prior call the threshold condition
holds, and the next call regenerates a non-empty summary. -/
theorem C3_summary_regenerated_witness :
    ((runAdds (initMemory 10 0) [⟨"a", "b", "t1", .GENERAL_CHAT, []⟩]).summary_threshold ≤
      (runAdds (initMemory 10 0) [⟨"a", "b", "t1", .GENERAL_CHAT, []⟩]).dialog_history.length)
    ∧ (applyAdd (runAdds (initMemory 10 0) [⟨"a", "b", "t1", .GENERAL_CHAT, []⟩])
        ⟨"c", "d", "t2", .GENERAL_CHAT, []⟩).conversation_summary ≠ "" :=
  ⟨by decide,
   (C3_summary_regenerated
     (runAdds (initMemory 10 0) [⟨"a", "b", "t1", .GENERAL_CHAT, []⟩])
     ⟨"c", "d", "t2", .GENERAL_CHAT, []⟩ (by decide) (by decide)).2⟩

/-- Counterexample to C3 as stated: with `max_history = 1` and
`summary_threshold = 1`, a state with `len(history) ≥ summary_threshold`
exists in which a further `add_dialog_turn` call leaves the summary empty
(the source's `_generate_summary` early-returns below 2 stored turns), so
the summary neither becomes non-empty nor equals the template. -/
theorem C3_counterexample :
    ((runAdds (initMemory 1 1) [⟨"a", "b", "t1", .GENERAL_CHAT, []⟩]).summary_threshold ≤
      (runAdds (initMemory 1 1) [⟨"a", "b", "t1", .GENERAL_CHAT, []⟩]).dialog_history.length)
    ∧ (applyAdd (runAdds (initMemory 1 1) [⟨"a", "b", "t1", .GENERAL_CHAT, []⟩])
        ⟨"c", "d", "t2", .GENERAL_CHAT, []⟩).conversation_summary = ""
    ∧ specSummaryTemplate
        (applyAdd (runAdds (initMemory 1 1) [⟨"a", "b", "t1", .GENERAL_CHAT, []⟩])
          ⟨"c", "d", "t2", .GENERAL_CHAT, []⟩).dialog_history ≠ "" :=
  ⟨by decide, by decide, by decide⟩

/-! ## Claim C4: context snapshot fallback chain -/

theorem recentTurnLines_ne_nil (hist : List DialogTurn) : recentTurnLines hist ≠ [] := by
  simp [recentTurnLines]

/-- C4 (amended): the snapshot is a fallback chain over the three blocks.
When the summary is non-empty, the output is the summary followed only by
the context-map block — the raw-turn block (the `用户:`/`客服:` lines) is
suppressed; note the context-map block may still expose a recent turn's
raw user text through the stored `query` fields, which is what refutes the
original claim.  The raw-turn block appears exactly when the summary is
empty and history is non-empty; when summary, context map, and history are
all empty — in particular immediately after `clear_memory` — the fixed
placeholder is returned. -/
theorem C4_fallback_chain (m : EnhancedMemory) :
    (m.conversation_summary ≠ "" →
      getContextForPrompt m =
        joinWith "\n" (m.conversation_summary :: contextLines m.current_context))
    ∧ (m.conversation_summary = "" → m.dialog_history ≠ [] →
        getContextForPrompt m =
          joinWith "\n" (contextLines m.current_context ++ recentTurnLines m.dialog_history))
    ∧ (m.conversation_summary = "" → m.current_context = [] → m.dialog_history = [] →
        getContextForPrompt m = "无历史对话记录")
    ∧ getContextForPrompt (clearMemory m) = "无历史对话记录" := by
  refine ⟨?_, ?_, ?_, ?_⟩
  · intro h
    simp [getContextForPrompt, h]
  · intro h hh
    simp [getContextForPrompt, h, hh, List.isEmpty_iff, recentTurnLines_ne_nil]
  · intro h1 h2 h3
    simp [getContextForPrompt, h1, h2, h3, contextLines]
  · simp [getContextForPrompt, clearMemory, contextLines]

/-- The memory state reached from fresh (`max_history = 10`,
`summary_threshold = 2`) by two product-inquiry turns whose user input
"我想买衣服" contains the product keyword "衣服". -/
def mProductTurns : EnhancedMemory :=
  runAdds (initMemory 10 2)
    [⟨"我想买衣服", "好的", "t1", .PRODUCT_INQUIRY, []⟩,
     ⟨"我想买衣服", "好的", "t2", .PRODUCT_INQUIRY, []⟩]

/-- Witness for C4 (amended) at the reachable state `mProductTurns`,
whose summary is non-empty. -/
theorem C4_fallback_chain_witness :
    getContextForPrompt mProductTurns =
      joinWith "\n" (mProductTurns.conversation_summary ::
        contextLines mProductTurns.current_context) :=
  (C4_fallback_chain mProductTurns).1 (ne_of_beq_false rfl)

/-- Counterexample to C4 as stated: in the reachable state
`mProductTurns` the summary is non-empty, yet the snapshot still contains
the raw user text "我想买衣服" of the most recent turn, because the
context map stores the full query text and the context block prints it. -/
theorem C4_counterexample :
    mProductTurns.conversation_summary ≠ ""
    ∧ mProductTurns.dialog_history.map (fun t => t.user_input) =
        ["我想买衣服", "我想买衣服"]
    ∧ containsSubstr (getContextForPrompt mProductTurns) "我想买衣服" = true :=
  ⟨ne_of_beq_false rfl, rfl, rfl⟩

/-! ## Claim C5: lossless export round-trip -/

theorem valueToMessageType_value (mt : MessageType) :
    valueToMessageType mt.value = some mt := by
  cases mt <;> rfl

theorem parseStrList_map (l : List String) :
    parseStrList (l.map Json.str) = some l := by
  induction l with
  | nil => rfl
  | cons s rest ih => simp [parseStrList, ih]

theorem parseTurn_turnToJson (t : DialogTurn) :
    parseTurn (turnToJson t) = some t := by
  obtain ⟨ui, ar, ts, mt, ke, it⟩ := t
  simp [turnToJson, parseTurn, jGet, parseStrList_map, valueToMessageType_value]

theorem parseTurnList_map (l : List DialogTurn) :
    parseTurnList (l.map turnToJson) = some l := by
  induction l with
  | nil => rfl
  | cons t rest ih => simp [parseTurnList, parseTurn_turnToJson, ih]

theorem parseCtxVal_ctxValToJson (v : CtxVal) :
    parseCtxVal (ctxValToJson v) = some v := by
  cases v <;> rfl

theorem parseContext_map (ctx : Context) :
    parseContext (ctx.map (fun kv => (kv.1, ctxValToJson kv.2))) = some ctx := by
  induction ctx with
  | nil => rfl
  | cons kv rest ih => simp [parseContext, parseCtxVal_ctxValToJson, ih]

/-- C5: export is lossless — structurally re-parsing the exported JSON
value recovers the summary, the context map, and every field of every
`DialogTurn` of the history exactly and in order, for every memory
state. -/
theorem C5_export_roundtrip (m : EnhancedMemory) :
    parseMemoryData (exportMemory m) =
      some ⟨m.dialog_history, m.conversation_summary, m.current_context⟩ := by
  simp [exportMemory, parseMemoryData, jGet, parseTurnList_map, parseContext_map]

/-! ## Claim C9: memory stats -/

theorem strSlice_of_length_le (s : String) (n : Nat) (h : s.length ≤ n) :
    strSlice s n = s := by
  have hd : s.data.length ≤ n := h
  simp [strSlice, List.take_of_length_le hd]

/-- C9 (amended): `get_memory_stats` returns the turn count, the context
keys, and the categories of up to the last 5 turns; the summary preview is
the first 100 characters with the ellipsis marker appended whenever the
summary is non-empty — even when nothing was truncated (the Python
conditional expression binds as `(summary[:100] + "...") if summary else
"无"`) — so a short non-empty summary is reported as itself plus
`"..."`. -/
theorem C9_memory_stats (m : EnhancedMemory) :
    ((getMemoryStats m).total_turns = m.dialog_history.length)
    ∧ ((getMemoryStats m).context_keys = m.current_context.map Prod.fst)
    ∧ ((getMemoryStats m).message_types =
        (lastN 5 m.dialog_history).map (fun t => t.message_type.value))
    ∧ (m.conversation_summary = "" → (getMemoryStats m).current_summary = "无")
    ∧ (m.conversation_summary ≠ "" →
        (getMemoryStats m).current_summary = strSlice m.conversation_summary 100 ++ "...")
    ∧ (m.conversation_summary ≠ "" → m.conversation_summary.length ≤ 100 →
        (getMemoryStats m).current_summary = m.conversation_summary ++ "...") := by
  refine ⟨rfl, rfl, rfl, ?_, ?_, ?_⟩
  · intro h
    simp [getMemoryStats, h]
  · intro h
    simp [getMemoryStats, h]
  · intro h hlen
    simp [getMemoryStats, h, strSlice_of_length_le _ _ hlen]

/-- Witness for C9 (amended) at the reachable state `mProductTurns`,
whose summary is non-empty and 86 characters long. -/
theorem C9_memory_stats_witness :
    (getMemoryStats mProductTurns).current_summary =
      mProductTurns.conversation_summary ++ "..." :=
  (C9_memory_stats mProductTurns).2.2.2.2.2 (ne_of_beq_false rfl) (of_decide_eq_true rfl)

/-- Counterexample to C9 as stated: in the reachable state
`mProductTurns` the summary is non-empty and only 86 ≤ 100 characters, so
no truncation happens, yet the preview differs from the summary — the
source appends the ellipsis marker to every non-empty summary. -/
theorem C9_counterexample :
    mProductTurns.conversation_summary ≠ ""
    ∧ mProductTurns.conversation_summary.length ≤ 100
    ∧ (getMemoryStats mProductTurns).current_summary ≠
        mProductTurns.conversation_summary :=
  ⟨ne_of_beq_false rfl, of_decide_eq_true rfl, ne_of_beq_false rfl⟩

/-! ## Claim C10: context-map invariants -/

theorem setKey_mem (ctx : Context) (k : String) (v : CtxVal) (p : String × CtxVal)
    (hp : p ∈ setKey ctx k v) : p = (k, v) ∨ p ∈ ctx := by
  simp only [setKey] at hp
  split at hp
  · obtain ⟨q, hq, hpq⟩ := List.mem_map.mp hp
    by_cases hk : q.1 = k
    · rw [if_pos hk] at hpq
      exact Or.inl hpq.symm
    · rw [if_neg hk] at hpq
      exact Or.inr (hpq ▸ hq)
  · rcases List.mem_append.mp hp with h | h
    · exact Or.inr h
    · simp only [List.mem_singleton] at h
      exact Or.inl h

theorem applyAdd_context (m : EnhancedMemory) (c : AddCall) :
    (applyAdd m c).current_context = updateContext m.current_context (mkTurn c) := by
  simp [applyAdd, addDialogTurn, mkTurn]

theorem updateContext_mem (ctx : Context) (t : DialogTurn) (p : String × CtxVal)
    (hp : p ∈ updateContext ctx t) :
    p.1 = "current_product" ∨ p.1 = "current_order" ∨ p ∈ ctx := by
  simp only [updateContext] at hp
  split at hp
  · split at hp
    · rcases setKey_mem _ _ _ _ hp with h | h
      · exact Or.inl (by rw [h])
      · exact Or.inr (Or.inr h)
    · exact Or.inr (Or.inr hp)
  · split at hp
    · rcases setKey_mem _ _ _ _ hp with h | h
      · exact Or.inr (Or.inl (by rw [h]))
      · exact Or.inr (Or.inr h)
    · exact Or.inr (Or.inr hp)
  · exact Or.inr (Or.inr hp)

theorem runOps_ctx_keys :
    ∀ (ops : List MemOp) (m : EnhancedMemory),
      (∀ p ∈ m.current_context, p.1 = "current_product" ∨ p.1 = "current_order") →
      ∀ p ∈ (runOps m ops).current_context,
        p.1 = "current_product" ∨ p.1 = "current_order" := by
  intro ops
  induction ops with
  | nil => intro m hm; exact hm
  | cons o os ih =>
    intro m hm
    apply ih
    intro p hp
    cases o with
    | add c =>
      simp only [applyOp] at hp
      rw [applyAdd_context] at hp
      rcases updateContext_mem _ _ _ hp with h | h | h
      · exact Or.inl h
      · exact Or.inr h
      · exact hm p h
    | clear =>
      simp [applyOp, clearMemory] at hp

theorem isSome_map_option {α β : Type} (f : α → β) (o : Option α) :
    (o.map f).isSome = o.isSome := by
  cases o <;> rfl

theorem find?_isSome_eq_any {α : Type} (p : α → Bool) (l : List α) :
    (l.find? p).isSome = l.any p := by
  induction l with
  | nil => rfl
  | cons a as ih =>
    by_cases h : p a
    · simp [List.find?, List.any, h]
    · simp [List.find?, List.any, h, ih]

theorem takeWhile_append_all (p : Char → Bool) (r b : List Char)
    (h : ∀ c ∈ r, p c = true) :
    (r ++ b).takeWhile p = r ++ b.takeWhile p := by
  induction r with
  | nil => rfl
  | cons c cs ih =>
    have hc : p c = true := h c (List.mem_cons_self c cs)
    simp only [List.cons_append, List.takeWhile_cons, hc, if_true]
    rw [ih (fun x hx => h x (List.mem_cons_of_mem c hx))]

theorem prefix_length_le_takeWhile (p : Char → Bool) :
    ∀ (run l : List Char), run <+: l → (∀ c ∈ run, p c = true) →
      run.length ≤ (l.takeWhile p).length := by
  intro run l hpre hall
  obtain ⟨t, rfl⟩ := hpre
  rw [takeWhile_append_all p run t hall]
  simp

theorem findOrderRun_isSome_iff (l : List Char) :
    (findOrderRun l).isSome = true ↔
      ∃ run : List Char, 10 ≤ run.length ∧ (∀ ch ∈ run, isOrderChar ch = true) ∧
        run <:+: l := by
  induction l with
  | nil =>
    simp only [findOrderRun, Option.isSome_none, Bool.false_eq_true, false_iff]
    rintro ⟨run, h10, _, hinf⟩
    have : run = [] := List.eq_nil_of_infix_nil hinf
    simp [this] at h10
  | cons c cs ih =>
    simp only [findOrderRun]
    by_cases h10 : 10 ≤ ((c :: cs).takeWhile isOrderChar).length
    · rw [if_pos h10]
      simp only [Option.isSome_some, true_iff]
      exact ⟨(c :: cs).takeWhile isOrderChar, h10,
        fun ch hch => List.mem_takeWhile_imp hch,
        ⟨[], (c :: cs).dropWhile isOrderChar, by simp⟩⟩
    · rw [if_neg h10, ih]
      constructor
      · rintro ⟨run, hr10, hall, hinf⟩
        exact ⟨run, hr10, hall, List.infix_cons hinf⟩
      · rintro ⟨run, hr10, hall, hinf⟩
        rcases List.infix_cons_iff.mp hinf with hpre | hinf2
        · exact absurd (le_trans hr10 (prefix_length_le_takeWhile _ _ _ hpre hall)) h10
        · exact ⟨run, hr10, hall, hinf2⟩

/-- C10: in every reachable memory state the context-map keys are a
subset of `\x7b"current_product", "current_order"\x7d`; an `add_dialog_turn`
whose category is neither product inquiry nor order question leaves the
context untouched; a product-inquiry (resp. order-question) turn
overwrites `"current_product"` (resp. `"current_order"`) exactly when
extraction succeeds and retains the previous map otherwise; and
extraction succeeds precisely when a product-vocabulary keyword occurs
(resp. when some run of 10 or more `[A-Z0-9]` characters occurs in the
input). -/
theorem C10_context_invariant :
    (∀ (mh st : Nat) (ops : List MemOp) (p : String × CtxVal),
        p ∈ (runOps (initMemory mh st) ops).current_context →
        p.1 = "current_product" ∨ p.1 = "current_order")
    ∧ (∀ (m : EnhancedMemory) (c : AddCall),
        c.message_type ≠ .PRODUCT_INQUIRY → c.message_type ≠ .ORDER_QUESTION →
        (applyAdd m c).current_context = m.current_context)
    ∧ (∀ (m : EnhancedMemory) (c : AddCall), c.message_type = .PRODUCT_INQUIRY →
        (extractProductInfo c.user_input = none →
          (applyAdd m c).current_context = m.current_context)
        ∧ ∀ v : CtxVal, extractProductInfo c.user_input = some v →
            (applyAdd m c).current_context = setKey m.current_context "current_product" v)
    ∧ (∀ (m : EnhancedMemory) (c : AddCall), c.message_type = .ORDER_QUESTION →
        (extractOrderInfo c.user_input = none →
          (applyAdd m c).current_context = m.current_context)
        ∧ ∀ v : CtxVal, extractOrderInfo c.user_input = some v →
            (applyAdd m c).current_context = setKey m.current_context "current_order" v)
    ∧ (∀ s : String, (extractProductInfo s).isSome = containsAnyKeyword productVocab s)
    ∧ (∀ s : String, (extractOrderInfo s).isSome = true ↔
        ∃ run : List Char, 10 ≤ run.length ∧ (∀ ch ∈ run, isOrderChar ch = true) ∧
          run <:+: s.data) := by
  refine ⟨?_, ?_, ?_, ?_, ?_, ?_⟩
  · intro mh st ops p hp
    exact runOps_ctx_keys ops (initMemory mh st) (by simp [initMemory]) p hp
  · intro m c h1 h2
    rw [applyAdd_context, updateContext]
    cases hmt : c.message_type <;> simp_all [mkTurn]
  · intro m c h
    constructor
    · intro hnone
      rw [applyAdd_context, updateContext]
      simp [mkTurn, h, hnone]
    · intro v hv
      rw [applyAdd_context, updateContext]
      simp [mkTurn, h, hv]
  · intro m c h
    constructor
    · intro hnone
      rw [applyAdd_context, updateContext]
      simp [mkTurn, h, hnone]
    · intro v hv
      rw [applyAdd_context, updateContext]
      simp [mkTurn, h, hv]
  · intro s
    rw [extractProductInfo, isSome_map_option, firstProductKeyword,
      find?_isSome_eq_any, containsAnyKeyword]
  · intro s
    rw [extractOrderInfo, isSome_map_option]
    exact findOrderRun_isSome_iff s.data

/-- Witness for C10 at concrete inputs: a general-chat turn leaves the
context unchanged, and the order regex matches the input "订单ABCDE12345X呢". -/
theorem C10_context_invariant_witness :
    (applyAdd (initMemory 10 6) ⟨"你好", "hi", "t", .GENERAL_CHAT, []⟩).current_context =
      (initMemory 10 6).current_context
    ∧ (extractOrderInfo "订单ABCDE12345X呢").isSome = true :=
  ⟨C10_context_invariant.2.1 (initMemory 10 6) ⟨"你好", "hi", "t", .GENERAL_CHAT, []⟩
      (by decide) (by decide),
   (C10_context_invariant.2.2.2.2.2 "订单ABCDE12345X呢").mpr
     ⟨"ABCDE12345X".data, by decide, by decide, by decide⟩⟩

/-! ## Claims C7 and C8: tool registry lifecycle and error handling -/

/-- C7 (amended): a tool with missing required configuration stays
disabled only when its initialization probe propagates the configuration
failure.  The OCR tool's probe returns false when its required identifier
is missing, so `enable` returns false and the registry is unchanged; the
logistics tool's probe runs the same configuration check but ignores its
failure and succeeds (sample-data fallback), so `enable` returns true and
the tool becomes enabled even with no configuration present. -/
theorem C7_enable_configuration_gate (env : Env) (probe : Bool)
    (h : checkPermissions env ocrTool.required_env_vars = false) :
    (enableTool mcpManager0 "aliyun_ocr" env probe = (false, mcpManager0)
     ∧ (lookupTool mcpManager0 "aliyun_ocr").map (fun t => t.is_enabled) = some false)
    ∧ ((enableTool mcpManager0 "logistics_tracker" env probe).1 = true
       ∧ (lookupTool (enableTool mcpManager0 "logistics_tracker" env probe).2
            "logistics_tracker").map (fun t => t.is_enabled) = some true) := by
  simp only [ocrTool] at h
  refine ⟨⟨?_, rfl⟩, rfl, rfl⟩
  simp [enableTool, mcpManager0, registerTool, lookupTool, logisticsTool, ocrTool,
    initProbe, h]

/-- Witness for C7 (amended) in an empty environment. -/
theorem C7_enable_configuration_gate_witness :
    checkPermissions [] ocrTool.required_env_vars = false
    ∧ enableTool mcpManager0 "aliyun_ocr" [] true = (false, mcpManager0) :=
  ⟨by decide, ((C7_enable_configuration_gate [] true (by decide)).1).1⟩

/-- Counterexample to C7 as stated: the logistics tool's required
identifier `LOGISTICS_APP_CODE` is missing from the empty environment and
its probe's configuration check fails, yet `enable` returns true, the
tool's enabled flag is set, and its name enters the enabled list. -/
theorem C7_counterexample :
    checkPermissions [] logisticsTool.required_env_vars = false
    ∧ (enableTool mcpManager0 "logistics_tracker" [] false).1 = true
    ∧ (lookupTool (enableTool mcpManager0 "logistics_tracker" [] false).2
        "logistics_tracker").map (fun t => t.is_enabled) = some true
    ∧ (enableTool mcpManager0 "logistics_tracker" [] false).2.enabled_tools =
        ["logistics_tracker"] :=
  ⟨rfl, rfl, rfl, rfl⟩

/-- C8 (amended): `enable` on an unregistered name returns false and
leaves the registry unchanged; `execute` on an unknown or
registered-but-not-enabled name returns the null result `None` (the
descriptive message is only printed) rather than an error dict; and when
the invoked capability raises, `execute` catches the exception and
returns the error-shaped dict `\x7b"error": str(e)\x7d` instead of
propagating it. -/
theorem C8_registry_error_handling :
    (∀ (mgr : MCPManager) (name : String) (env : Env) (probe : Bool),
        lookupTool mgr name = none → enableTool mgr name env probe = (false, mgr))
    ∧ (∀ (mgr : MCPManager) (name : String) (params : List (String × String))
        (now : String) (f : List (String × String) → Except String ExecResult),
        lookupTool mgr name = none → executeTool mgr name params now f = none)
    ∧ (∀ (mgr : MCPManager) (name : String) (params : List (String × String))
        (now : String) (f : List (String × String) → Except String ExecResult)
        (t : MCPToolState),
        lookupTool mgr name = some t → t.is_enabled = false →
        executeTool mgr name params now f = none)
    ∧ (∀ (mgr : MCPManager) (name : String) (params : List (String × String))
        (now : String) (f : List (String × String) → Except String ExecResult)
        (t : MCPToolState) (e : String),
        lookupTool mgr name = some t → t.is_enabled = true →
        toolExecute t.impl params now f = .error e →
        executeTool mgr name params now f = some [("error", .s e)]) := by
  refine ⟨?_, ?_, ?_, ?_⟩
  · intro mgr name env probe h
    simp [enableTool, h]
  · intro mgr name params now f h
    simp [executeTool, h]
  · intro mgr name params now f t horder h
    simp [executeTool, horder, h]
  · intro mgr name params now f t e hl he hr
    simp [executeTool, hl, he, hr]

/-- The registry after enabling the logistics tool in an empty
environment. -/
def mgrLogisticsEnabled : MCPManager :=
  (enableTool mcpManager0 "logistics_tracker" [] false).2

/-- Witness for C8 (amended): calling the enabled logistics tool with no
`tracking_number` parameter raises `TypeError`, which `execute_tool`
converts into an error dict. -/
theorem C8_registry_error_handling_witness :
    executeTool mgrLogisticsEnabled "logistics_tracker" [] "now"
        (fun _ => Except.error "") =
      some [("error",
        .s "execute() missing 1 required positional argument: 'tracking_number'")] :=
  C8_registry_error_handling.2.2.2 mgrLogisticsEnabled "logistics_tracker" [] "now"
    (fun _ => Except.error "") { logisticsTool with is_enabled := true }
    "execute() missing 1 required positional argument: 'tracking_number'"
    rfl rfl rfl

/-- Counterexample to C8 as stated: `execute` on an unknown name and on
the registered-but-not-enabled logistics tool returns `None`, not a
result carrying a descriptive error. -/
theorem C8_counterexample :
    executeTool mcpManager0 "unknown_tool" [] "now" (fun _ => Except.error "") = none
    ∧ executeTool mcpManager0 "logistics_tracker"
        [("tracking_number", "SF123456789CN")] "now" (fun _ => Except.error "") = none :=
  ⟨rfl, rfl⟩

end CthAgent
